import Mathlib

/-!
Verification of the haliax partitioning engine (`src/haliax/partitioning.py`):
scoped resource mappings, partition-spec resolution, axis rounding, eager
sharding application, and the compiled-dispatch / shape-inference caches.

Python dictionaries are modelled as association lists where later entries win
on lookup (`dget`), matching the observable behaviour of `dict` construction
followed by `update`.  `Option` models Python `None`; `Except` models raised
exceptions.
-/

namespace Haliax

/-- A physical axis spec is a single physical axis name or a sequence of names
(`PhysicalAxisSpec = Union[PhysicalAxis, Sequence[PhysicalAxis]]`). -/
inductive PhysicalAxisSpec where
  | single (s : String)
  | multi (l : List String)
deriving DecidableEq

/-- A logical axis: a name together with a positive size (`types.Axis`). -/
structure Axis where
  name : String
  size : Nat
deriving DecidableEq

/-- `AxisSelector = Union[str, Axis]`: functions accept a bare name or an Axis. -/
inductive AxisSelector where
  | byName (s : String)
  | byAxis (a : Axis)
deriving DecidableEq

/-- Python-dict lookup on an association list: later entries win, as after
`dict(...)` construction and `dict.update`. -/
def dget {β : Type} : List (String × β) → String → Option β
  | [], _ => none
  | (k, v) :: rest, q =>
    match dget rest q with
    | some w => some w
    | none => if k = q then some v else none

/-- `dfallback a b` is `a` when `a` is `some`, else `b`: the lookup-level
effect of one dict shadowing another. -/
def dfallback {β : Type} (a b : Option β) : Option β :=
  match a with
  | some w => some w
  | none => b

/-- A resource mapping: logical axis name → physical axis spec. -/
abbrev MDict := List (String × PhysicalAxisSpec)

/-- Python truthiness fallback `mapping or ambient`: `None` and the empty dict
both fall through to the ambient thread-local mapping. -/
def orMapping (mapping ambient : Option MDict) : Option MDict :=
  match mapping with
  | none => ambient
  | some d => if d.isEmpty then ambient else some d

/-- `physical_axis_name(axis, mapping)`: resolve the physical spec for a
logical axis, falling back to the ambient scoped mapping, `none` if unmapped
or no mapping is active.  Looks up by name only. -/
def physical_axis_name (axis : AxisSelector) (mapping ambient : Option MDict) :
    Option PhysicalAxisSpec :=
  match orMapping mapping ambient with
  | none => none
  | some m =>
    match axis with
    | .byName s => dget m s
    | .byAxis a => dget m a.name

/-- `pspec_for_axis(axes, mapping)`: one entry per logical axis, in order;
`none` is the replicated (unmapped) entry of the PartitionSpec. -/
def pspec_for_axis (axes : List AxisSelector) (mapping ambient : Option MDict) :
    List (Option PhysicalAxisSpec) :=
  axes.map (fun a => physical_axis_name a mapping ambient)

/-- Errors raised by the resolver: `ValueError("No resource mapping found")`
when no mesh context is available, and `KeyError` when a mapped physical axis
is absent from the mesh shape. -/
inductive PartErr where
  | noMesh
  | meshKeyMissing (s : String)
deriving DecidableEq

/-- The list of physical axis names referenced by a spec
(`if isinstance(name, str): name = (name,)`). -/
def specNames : PhysicalAxisSpec → List String
  | .single s => [s]
  | .multi l => l

/-- `prod([mesh_shape[n] for n in name])`: product of mesh extents, raising on
the first name missing from the mesh shape. -/
def meshProd (ms : List (String × Nat)) : List String → Except PartErr Nat
  | [] => .ok 1
  | n :: rest =>
    match dget ms n with
    | none => .error (.meshKeyMissing n)
    | some s =>
      match meshProd ms rest with
      | .error e => .error e
      | .ok p => .ok (s * p)

/-- `physical_axis_size(axis, mapping)`: the mesh shape is read from the
thread context (`none` models the `AttributeError` → `ValueError` path); an
unmapped axis yields `ok none`; a mapped axis yields the product of the mesh
sizes along its physical spec. -/
def physical_axis_size (axis : AxisSelector) (mapping ambient : Option MDict)
    (meshShape : Option (List (String × Nat))) : Except PartErr (Option Nat) :=
  match meshShape with
  | none => .error .noMesh
  | some ms =>
    match physical_axis_name axis mapping ambient with
    | none => .ok none
    | some spec =>
      match meshProd ms (specNames spec) with
      | .error e => .error e
      | .ok p => .ok (some p)

/-- `round_axis_for_partitioning(axis, mapping)`: round the axis size up to a
multiple of its physical axis size; unmapped axes are returned unchanged.
`(axis.size + size - 1) // size * size` is Nat division as in Python for the
positive sizes a mesh provides. -/
def round_axis_for_partitioning (axis : Axis) (mapping ambient : Option MDict)
    (meshShape : Option (List (String × Nat))) : Except PartErr Axis :=
  match physical_axis_size (.byAxis axis) mapping ambient meshShape with
  | .error e => .error e
  | .ok none => .ok axis
  | .ok (some size) => .ok ⟨axis.name, (axis.size + size - 1) / size * size⟩

/-- The mapping installed by the `axis_mapping` context manager on entry:
`mapping = dict(mapping)`, then `if merge: mapping.update(old_mapping or {})`,
then `if len(kwargs): mapping.update(kwargs)`.  With `dget`, appending on the
right is exactly `dict.update` (right entries win on lookup). -/
def axis_mapping_enter (old : Option MDict) (mapping : MDict) (merge : Bool)
    (kwargs : MDict) : MDict :=
  let m := mapping
  let m := if merge then m ++ old.getD [] else m
  if kwargs.length ≠ 0 then m ++ kwargs else m

/-- A nested program of `axis_mapping` scopes: bodies can run further scopes in
sequence or raise.  Models arbitrary nesting of the context manager. -/
inductive ScopeProg where
  | nop
  | raiseErr
  | scope (mapping : MDict) (merge : Bool) (kwargs : MDict) (body : ScopeProg)
  | seq (p q : ScopeProg)

/-- Run a scope program against the thread-local state
(`_mapping_holder.thread_data.resource_mapping : Option MDict`).  Returns the
final state and whether execution completed without an exception.  A `scope`
mirrors the context manager: store the new mapping, run the body, and in the
`finally` block restore the mapping captured at entry — whether or not the
body raised. -/
def runScopes : ScopeProg → Option MDict → Option MDict × Bool
  | .nop, st => (st, true)
  | .raiseErr, st => (st, false)
  | .scope m merge kw body, st =>
    let inner := runScopes body (some (axis_mapping_enter st m merge kw))
    (st, inner.2)
  | .seq p q, st =>
    let r := runScopes p st
    if r.2 then runScopes q r.1 else (r.1, false)

/-- A device placement of a raw array: `NamedSharding(mesh, pspec)` (the mesh
identified by `meshId`) or a `SingleDeviceSharding`. -/
inductive Shard where
  | namedShard (meshId : Nat) (spec : List (Option PhysicalAxisSpec))
  | singleDevice (dev : Nat)
deriving DecidableEq

/-- A raw backend array: opaque data identity plus its current sharding. -/
structure RawArr where
  dataId : Nat
  sharding : Shard
deriving DecidableEq

/-- `NamedArray`: a raw array with an ordered sequence of axes. -/
structure NArr where
  array : RawArr
  axes : List Axis
deriving DecidableEq

/-- A PyTree whose leaves are NamedArrays or opaque non-named values. -/
inductive PTree where
  | named (a : NArr)
  | leaf (v : Nat)
  | node (l r : PTree)
deriving DecidableEq

/-- The target sharding `NamedSharding(mesh, pspec_for_axis(x.axes, mapping))`
computed by the eager branch of `shard_with_axis_mapping`. -/
def targetShard (meshId : Nat) (mapping : MDict) (ambient : Option MDict)
    (a : NArr) : Shard :=
  .namedShard meshId (pspec_for_axis (a.axes.map .byAxis) (some mapping) ambient)

/-- The eager (`else`) branch of `shard_with_axis_mapping`: for each NamedArray
leaf, if the current sharding equals the target, return it unchanged;
otherwise move the data (`jax.device_put` when the target is fully
addressable, `jax.make_array_from_callback` otherwise — both modelled as a
placement change).  Non-named leaves pass through.  The second component
counts data movements. -/
def shard_with_axis_mapping_eager (meshId : Nat) (addressable : Shard → Bool)
    (mapping : MDict) (ambient : Option MDict) : PTree → PTree × Nat
  | .named a =>
    let sharding := targetShard meshId mapping ambient a
    if a.array.sharding = sharding then (.named a, 0)
    else if addressable sharding then
      (.named ⟨⟨a.array.dataId, sharding⟩, a.axes⟩, 1)
    else
      (.named ⟨⟨a.array.dataId, sharding⟩, a.axes⟩, 1)
  | .leaf v => (.leaf v, 0)
  | .node l r =>
    let sl := shard_with_axis_mapping_eager meshId addressable mapping ambient l
    let sr := shard_with_axis_mapping_eager meshId addressable mapping ambient r
    (.node sl.1 sr.1, sl.2 + sr.2)

/-- Every NamedArray leaf of the tree is already placed according to the
mapping (its sharding equals the target sharding). -/
def allPlaced (meshId : Nat) (mapping : MDict) (ambient : Option MDict) :
    PTree → Bool
  | .named a => decide (a.array.sharding = targetShard meshId mapping ambient a)
  | .leaf _ => true
  | .node l r =>
    allPlaced meshId mapping ambient l && allPlaced meshId mapping ambient r

/-- The error raised by `named_pjit` when no resource mapping is resolvable
(`ValueError("Must provide axis_resources, ...")`). -/
inductive NamedPjitErr where
  | noResourceMapping
deriving DecidableEq

/-- `if x is None`-style fallback (unlike `orMapping`, an empty dict does not
fall through here). -/
def oFallback (x y : Option MDict) : Option MDict :=
  match x with
  | none => y
  | some d => some d

/-- The resource-resolution prologue of `named_pjit`, run at wrap time before
the wrapped callable exists (hence before any compilation or execution):
`axis_resources` falls back to the ambient scoped mapping; `in_axis_resources`
and `out_axis_resources` fall back to `axis_resources`; raises when
`axis_resources is None and (in_axis_resources is None or out_axis_resources
is None)`. -/
def named_pjit_resolve (axisRes inRes outRes ambient : Option MDict) :
    Except NamedPjitErr (Option MDict × Option MDict × Option MDict) :=
  let a := oFallback axisRes ambient
  let i := oFallback inRes a
  let o := oFallback outRes a
  if a.isNone && (i.isNone || o.isNone) then .error .noResourceMapping
  else .ok (a, i, o)

/-- First-match association-list lookup for caches (keys are inserted at most
once, so first match is the unique match). -/
def clookup {α β : Type} [DecidableEq α] : List (α × β) → α → Option β
  | [], _ => none
  | (k, v) :: rest, q => if k = q then some v else clookup rest q

/-- Modelled from the spec: the static signature of a call to a `named_pjit`-
wrapped function — function identity, static configuration, shapes of the
dynamic array leaves, and resolved input/output placements.  The hashing and
cache machinery itself (`equinox.compile_utils.compile_cache` and the backend
`pjit` compilation cache) is external to the repository sources. -/
structure StaticSignature where
  funId : Nat
  staticConfig : List Nat
  argShapes : List (List Nat)
  placements : List (List (Option PhysicalAxisSpec))
deriving DecidableEq

/-- Modelled from the spec: the process-wide compiled-dispatch cache — a map
from static signatures to compiled-executable identities plus a count of
compilations performed. -/
structure DispatchCache where
  entries : List (StaticSignature × Nat)
  compileCount : Nat

/-- Modelled from the spec: one call through the dispatch wrapper — look up
the static signature; on a hit reuse the cached executable, on a miss compile
exactly once (bumping the compile counter) and insert the new executable. -/
def dispatchCall (c : DispatchCache) (sig : StaticSignature) :
    DispatchCache × Nat :=
  match clookup c.entries sig with
  | some exe => (c, exe)
  | none => (⟨(sig, c.compileCount) :: c.entries, c.compileCount + 1⟩, c.compileCount)

/-- A leaf of the argument structure passed to `_cached_filter_eval_shape`:
either a jax array leaf (relevant to shape inference only through its shape)
or a static (non-array) leaf. -/
inductive PLeaf where
  | arr (shape : List Nat)
  | static (v : Nat)
deriving DecidableEq

/-- The static half of `hashable_partition(..., is_jax_array_like)`: the
non-array leaves together with the tree structure (array positions appear as
`none`).  The shapes of the array leaves are NOT part of it. -/
def staticPart (args : List PLeaf) : List (Option Nat) :=
  args.map (fun l => match l with | .arr _ => none | .static v => some v)

/-- The shapes of the dynamic (array) leaves, which `filter_eval_shape`
actually consumes. -/
def dynamicShapes (args : List PLeaf) : List (List Nat) :=
  args.filterMap (fun l => match l with | .arr sh => some sh | .static _ => none)

/-- The `_eval_shape_cache` table: key → memoized output-shape skeleton. -/
structure EvalShapeCache where
  entries : List ((Nat × List (Option Nat)) × List Nat)

/-- `_cached_filter_eval_shape(fun, *args)`: key on
`hashable_partition((fun, args, kwargs), is_jax_array_like)`'s static half
(here: `fnId` for the function object plus `staticPart args`); on a miss,
run shape inference (`fnEval` gives the abstract semantics of the function:
output shape from static leaves and dynamic shapes) and memoize. -/
def cached_filter_eval_shape (cache : EvalShapeCache) (fnId : Nat)
    (fnEval : List (Option Nat) → List (List Nat) → List Nat)
    (args : List PLeaf) : EvalShapeCache × List Nat :=
  let key := (fnId, staticPart args)
  match clookup cache.entries key with
  | some out => (cache, out)
  | none =>
    let out := fnEval (staticPart args) (dynamicShapes args)
    (⟨(key, out) :: cache.entries⟩, out)

/-- Appending on the right behaves as `dict.update` for lookups: entries of
the right dict win, keys absent from it fall back to the left dict. -/
theorem dget_append {β : Type} (d e : List (String × β)) (q : String) :
    dget (d ++ e) q = dfallback (dget e q) (dget d q) := by
  induction d with
  | nil => cases h : dget e q <;> simp [dget, dfallback, h]
  | cons p rest ih =>
    obtain ⟨k, v⟩ := p
    simp only [List.cons_append, dget, List.append_eq]
    rw [ih]
    cases h : dget e q <;> cases h2 : dget rest q <;> simp [dfallback, h, h2]

/-- C7: `pspec_for_axis` returns a PartitionSpec of the same length as the
axis sequence whose i-th entry is `physical_axis_name` of the i-th axis (in
particular an unmapped axis yields `none`, the replicated entry). -/
theorem pspec_for_axis_length_order (axes : List AxisSelector)
    (mapping ambient : Option MDict) :
    (pspec_for_axis axes mapping ambient).length = axes.length
    ∧ ∀ i : Nat, (pspec_for_axis axes mapping ambient)[i]?
        = (axes[i]?).map (fun a => physical_axis_name a mapping ambient) := by
  refine ⟨by simp [pspec_for_axis], fun i => ?_⟩
  simp [pspec_for_axis, List.getElem?_map]

/-- C10: an explicitly supplied empty mapping is falsy, so `physical_axis_name`
(and hence `pspec_for_axis`) falls back to the ambient scoped mapping exactly
as if no mapping had been passed; under an active scope a key of the scoped
mapping still resolves. -/
theorem physical_axis_name_empty_mapping (axis : AxisSelector)
    (ambient : Option MDict) :
    physical_axis_name axis (some []) ambient = physical_axis_name axis none ambient
    ∧ (∀ axes, pspec_for_axis axes (some []) ambient = pspec_for_axis axes none ambient)
    ∧ (∀ amb name spec, dget amb name = some spec →
        physical_axis_name (.byName name) (some []) (some amb) = some spec) := by
  refine ⟨rfl, fun axes => rfl, fun amb name spec h => ?_⟩
  simp [physical_axis_name, orMapping, h]

/-- Witness for C10 at a concrete scoped mapping. -/
theorem physical_axis_name_empty_mapping_witness :
    physical_axis_name (.byName "batch") (some []) (some [("batch", .single "data")])
      = some (.single "data") :=
  (physical_axis_name_empty_mapping (.byName "batch")
      (some [("batch", .single "data")])).2.2
    [("batch", .single "data")] "batch" (.single "data") (by decide)

/-- C2 counterexample: with `merge = true` and no overrides, a key present in
both the previous and the new mapping resolves to the PREVIOUS mapping's
value (`mapping.update(old_mapping or {})` lets old entries win), not the new
mapping's value as the claim states. -/
theorem axis_mapping_enter_merge_counterexample :
    dget (axis_mapping_enter (some [("a", .single "x")]) [("a", .single "y")] true [])
        "a" = some (.single "x")
    ∧ PhysicalAxisSpec.single "x" ≠ PhysicalAxisSpec.single "y" := by
  decide

/-- C2 amended: entering a scope with `merge = true` overlays the PREVIOUS
mapping onto the new one — the previous mapping wins on every conflicting
key, keys absent from the previous mapping are taken from the new mapping —
and the override entries are then applied on top unconditionally. -/
theorem axis_mapping_enter_merge_lookup (old : Option MDict)
    (mapping kwargs : MDict) (k : String) :
    dget (axis_mapping_enter old mapping true kwargs) k =
      dfallback (dget kwargs k)
        (dfallback (dget (old.getD []) k) (dget mapping k)) := by
  by_cases hk : kwargs.length = 0
  · have hkw : kwargs = [] := List.length_eq_zero.mp hk
    subst hkw
    simp [axis_mapping_enter, dget, dfallback, dget_append]
  · simp only [axis_mapping_enter, if_true, ne_eq, hk, not_false_eq_true, if_pos]
    rw [dget_append, dget_append]

/-- Any scope program leaves the thread-local mapping exactly as it found it:
each `scope` restores, in its `finally` block, the mapping captured at entry,
whether the body completed or raised. -/
theorem runScopes_fst (p : ScopeProg) (st : Option MDict) :
    (runScopes p st).1 = st := by
  induction p generalizing st with
  | nop => rfl
  | raiseErr => rfl
  | scope m merge kw body ih => rfl
  | seq p q ihp ihq =>
    simp only [runScopes]
    cases h : (runScopes p st).2 <;> simp [h, ihp, ihq]

/-- C4: releasing an `axis_mapping` scope — around any body, including one
that raises — restores the previously active mapping exactly (in particular
the `none` state), and an exception in the body still propagates; the same
restoration holds for every nested/sequenced scope program. -/
theorem axis_mapping_scope_restores (body : ScopeProg) (st : Option MDict)
    (mapping kwargs : MDict) (merge : Bool) :
    (runScopes (.scope mapping merge kwargs body) st).1 = st
    ∧ (runScopes (.scope mapping merge kwargs .raiseErr) st).2 = false
    ∧ ∀ p, (runScopes p st).1 = st :=
  ⟨runScopes_fst _ st, rfl, fun p => runScopes_fst p st⟩

/-- `(n + s - 1) / s * s` never falls below `n`. -/
theorem roundUp_ge (n s : Nat) (hs : 0 < s) : n ≤ (n + s - 1) / s * s := by
  rcases n with _ | m
  · exact Nat.zero_le _
  · have h1 : m + 1 + s - 1 = m + s := by omega
    rw [h1, Nat.add_div_right m hs, Nat.succ_mul]
    have key : m / s * s + m % s = m := Nat.div_add_mod' m s
    have hr : m % s < s := Nat.mod_lt m hs
    generalize hA : m / s * s = A at key ⊢
    generalize hR : m % s = r at key hr
    omega

/-- `(n + s - 1) / s * s` is below `n + s`: the rounding adds less than one
full physical-axis worth of padding. -/
theorem roundUp_lt (n s : Nat) (hs : 0 < s) : (n + s - 1) / s * s < n + s := by
  have h := Nat.div_mul_le_self (n + s - 1) s
  generalize hA : (n + s - 1) / s * s = A at h ⊢
  omega

/-- The rounded size is a multiple of the physical axis size. -/
theorem roundUp_dvd (n s : Nat) : s ∣ (n + s - 1) / s * s :=
  dvd_mul_left s _

/-- When the size already divides evenly, rounding leaves it unchanged. -/
theorem roundUp_eq_of_dvd (n s : Nat) (hs : 0 < s) (h : s ∣ n) :
    (n + s - 1) / s * s = n := by
  obtain ⟨k, hk⟩ := h
  subst hk
  have h1 : s * k + s - 1 = s * k + (s - 1) := by omega
  rw [h1, Nat.mul_add_div hs, Nat.div_eq_of_lt (by omega), Nat.add_zero]
  exact Nat.mul_comm k s

/-- C6: `round_axis_for_partitioning` leaves an unmapped axis unchanged; for a
mapped axis of positive physical size `s` it returns an axis of the same name
whose size is `axis.size` rounded up to the nearest multiple of `s` — never
smaller than the original, a multiple of `s`, minimal such, and equal to the
original whenever `s` already divides it (in particular when `s = 1`) — and
in all these cases it returns `ok`, never an error. -/
theorem round_axis_for_partitioning_spec (axis : Axis)
    (mapping ambient : Option MDict) (ms : List (String × Nat)) :
    (physical_axis_size (.byAxis axis) mapping ambient (some ms) = .ok none →
      round_axis_for_partitioning axis mapping ambient (some ms) = .ok axis)
    ∧ ∀ s, 0 < s →
        physical_axis_size (.byAxis axis) mapping ambient (some ms) = .ok (some s) →
        round_axis_for_partitioning axis mapping ambient (some ms)
            = .ok ⟨axis.name, (axis.size + s - 1) / s * s⟩
          ∧ axis.size ≤ (axis.size + s - 1) / s * s
          ∧ s ∣ (axis.size + s - 1) / s * s
          ∧ (axis.size + s - 1) / s * s < axis.size + s
          ∧ (s ∣ axis.size → (axis.size + s - 1) / s * s = axis.size) := by
  refine ⟨fun h => ?_, fun s hs h => ?_⟩
  · simp [round_axis_for_partitioning, h]
  · exact ⟨by simp [round_axis_for_partitioning, h], roundUp_ge _ _ hs,
      roundUp_dvd _ _, roundUp_lt _ _ hs, fun hd => roundUp_eq_of_dvd _ _ hs hd⟩

/-- Witness for C6: the spec's own example — `Axis("batch", 10)` on a physical
axis of size 4 rounds up to `Axis("batch", 12)`. -/
theorem round_axis_for_partitioning_spec_witness :
    round_axis_for_partitioning ⟨"batch", 10⟩ (some [("batch", .single "data")])
        none (some [("data", 4)]) = .ok ⟨"batch", 12⟩ :=
  ((round_axis_for_partitioning_spec ⟨"batch", 10⟩ (some [("batch", .single "data")])
      none [("data", 4)]).2 4 (by decide) rfl).1

/-- When every referenced physical axis is present in the mesh shape,
`meshProd` returns the product of the mesh extents. -/
theorem meshProd_ok (ms : List (String × Nat)) (names : List String)
    (h : ∀ n ∈ names, (dget ms n).isSome) :
    meshProd ms names = .ok ((names.map (fun n => (dget ms n).getD 0)).prod) := by
  induction names with
  | nil => simp [meshProd]
  | cons n rest ih =>
    have hn : (dget ms n).isSome := h n (List.mem_cons_self n rest)
    obtain ⟨s, hsv⟩ := Option.isSome_iff_exists.mp hn
    have hrest := ih (fun m hm => h m (List.mem_cons_of_mem n hm))
    simp [meshProd, hsv, hrest]

/-- C8: `physical_axis_size` raises when no mesh context is available, returns
`none` for an unmapped axis, and returns the product of the mesh sizes along
the axis's physical spec for a mapped axis whose physical names all exist in
the mesh. -/
theorem physical_axis_size_spec (axis : AxisSelector)
    (mapping ambient : Option MDict) (ms : List (String × Nat)) :
    physical_axis_size axis mapping ambient none = .error .noMesh
    ∧ (physical_axis_name axis mapping ambient = none →
        physical_axis_size axis mapping ambient (some ms) = .ok none)
    ∧ ∀ spec, physical_axis_name axis mapping ambient = some spec →
        (∀ n ∈ specNames spec, (dget ms n).isSome) →
        physical_axis_size axis mapping ambient (some ms)
          = .ok (some (((specNames spec).map (fun n => (dget ms n).getD 0)).prod)) := by
  refine ⟨rfl, fun h => ?_, fun spec hspec hall => ?_⟩
  · simp [physical_axis_size, h]
  · simp [physical_axis_size, hspec, meshProd_ok ms (specNames spec) hall]

/-- Witness for C8: the spec's example — an axis mapped to two physical axes
of sizes 2 and 4 has physical size 8; an unmapped axis yields `none`. -/
theorem physical_axis_size_spec_witness :
    physical_axis_size (.byName "embed")
        (some [("embed", .multi ["data", "model"])]) none
        (some [("data", 2), ("model", 4)]) = .ok (some 8) :=
  (physical_axis_size_spec (.byName "embed")
      (some [("embed", .multi ["data", "model"])]) none
      [("data", 2), ("model", 4)]).2.2
    (.multi ["data", "model"]) (by decide) (by decide)

/-- A tree whose NamedArray leaves are all already placed according to the
mapping is returned unchanged, with zero data movements. -/
theorem shard_eager_of_placed (meshId : Nat) (addressable : Shard → Bool)
    (mapping : MDict) (ambient : Option MDict) (t : PTree)
    (h : allPlaced meshId mapping ambient t = true) :
    shard_with_axis_mapping_eager meshId addressable mapping ambient t = (t, 0) := by
  induction t with
  | named a =>
    have heq : a.array.sharding = targetShard meshId mapping ambient a :=
      of_decide_eq_true h
    simp [shard_with_axis_mapping_eager, heq]
  | leaf v => rfl
  | node l r ihl ihr =>
    simp only [allPlaced, Bool.and_eq_true] at h
    simp [shard_with_axis_mapping_eager, ihl h.1, ihr h.2]

/-- After one eager application, every NamedArray leaf carries exactly the
target sharding for the mapping. -/
theorem shard_eager_placed (meshId : Nat) (addressable : Shard → Bool)
    (mapping : MDict) (ambient : Option MDict) (t : PTree) :
    allPlaced meshId mapping ambient
      (shard_with_axis_mapping_eager meshId addressable mapping ambient t).1 = true := by
  induction t with
  | named a =>
    simp only [shard_with_axis_mapping_eager]
    by_cases heq : a.array.sharding = targetShard meshId mapping ambient a
    · simp [heq, allPlaced]
    · simp [heq, allPlaced, targetShard, apply_ite, ite_self]
  | leaf v => rfl
  | node l r ihl ihr =>
    simp [shard_with_axis_mapping_eager, allPlaced, ihl, ihr]

/-- C9: the eager branch of `shard_with_axis_mapping` is idempotent — an
already-correctly-placed tree is returned unchanged with no data movement,
non-named leaves pass through unchanged and free on every application, and a
second application of the same mapping to any first application's result
moves nothing. -/
theorem shard_with_axis_mapping_eager_idempotent (meshId : Nat)
    (addressable : Shard → Bool) (mapping : MDict) (ambient : Option MDict)
    (t : PTree) (h : allPlaced meshId mapping ambient t = true) :
    shard_with_axis_mapping_eager meshId addressable mapping ambient t = (t, 0)
    ∧ (∀ v, shard_with_axis_mapping_eager meshId addressable mapping ambient
          (.leaf v) = (.leaf v, 0))
    ∧ ∀ u, shard_with_axis_mapping_eager meshId addressable mapping ambient
          (shard_with_axis_mapping_eager meshId addressable mapping ambient u).1
        = ((shard_with_axis_mapping_eager meshId addressable mapping ambient u).1, 0) :=
  ⟨shard_eager_of_placed meshId addressable mapping ambient t h,
   fun _ => rfl,
   fun u => shard_eager_of_placed meshId addressable mapping ambient _
     (shard_eager_placed meshId addressable mapping ambient u)⟩

/-- Witness for C9: a two-leaf tree whose NamedArray is already placed on the
mapping's target sharding passes through untouched. -/
theorem shard_with_axis_mapping_eager_idempotent_witness :
    shard_with_axis_mapping_eager 5 (fun _ => true) [("batch", .single "data")] none
        (.node (.named ⟨⟨0, .namedShard 5 [some (.single "data")]⟩, [⟨"batch", 8⟩]⟩)
          (.leaf 3))
      = (.node (.named ⟨⟨0, .namedShard 5 [some (.single "data")]⟩, [⟨"batch", 8⟩]⟩)
          (.leaf 3), 0) :=
  (shard_with_axis_mapping_eager_idempotent 5 (fun _ => true)
      [("batch", .single "data")] none
      (.node (.named ⟨⟨0, .namedShard 5 [some (.single "data")]⟩, [⟨"batch", 8⟩]⟩)
        (.leaf 3)) (by decide)).1

/-- C5: `named_pjit` resolves `in_axis_resources`/`out_axis_resources` by
falling back to `axis_resources`, which itself falls back to the ambient
scoped mapping; it raises — at wrap time, before any compilation or
execution — exactly when nothing is resolvable, i.e. when `axis_resources`
and the ambient mapping are both absent and at least one of the two
per-direction mappings is absent. -/
theorem named_pjit_resolve_spec (axisRes inRes outRes ambient : Option MDict) :
    (named_pjit_resolve axisRes inRes outRes ambient = .error .noResourceMapping
      ↔ axisRes = none ∧ ambient = none ∧ (inRes = none ∨ outRes = none))
    ∧ ∀ t, named_pjit_resolve axisRes inRes outRes ambient = .ok t →
        t = (oFallback axisRes ambient,
             oFallback inRes (oFallback axisRes ambient),
             oFallback outRes (oFallback axisRes ambient)) := by
  cases axisRes <;> cases ambient <;> cases inRes <;> cases outRes <;>
    simp [named_pjit_resolve, oFallback]

/-- Witness for C5: with no `axis_resources` and no ambient mapping but both
per-direction mappings given, resolution succeeds and yields exactly the two
given mappings. -/
theorem named_pjit_resolve_spec_witness :
    ((none : Option MDict), (some [("a", PhysicalAxisSpec.single "p")] : Option MDict),
        (some [] : Option MDict))
      = (oFallback none none,
         oFallback (some [("a", PhysicalAxisSpec.single "p")]) (oFallback none none),
         oFallback (some []) (oFallback none none)) :=
  (named_pjit_resolve_spec none (some [("a", .single "p")]) (some []) none).2
    (none, some [("a", .single "p")], some []) rfl

/-- C1: dispatching through the compiled-call cache compiles exactly once for
two calls sharing a static signature — both calls receive the same compiled
executable — and a third call with a different (uncached) static signature
compiles exactly once more. -/
theorem named_pjit_cache_compile_once (c : DispatchCache)
    (sig sig2 : StaticSignature)
    (h1 : clookup c.entries sig = none) (h2 : clookup c.entries sig2 = none)
    (hne : sig2 ≠ sig) :
    (dispatchCall c sig).1.compileCount = c.compileCount + 1
    ∧ (dispatchCall (dispatchCall c sig).1 sig).2 = (dispatchCall c sig).2
    ∧ (dispatchCall (dispatchCall c sig).1 sig).1.compileCount
        = (dispatchCall c sig).1.compileCount
    ∧ (dispatchCall (dispatchCall (dispatchCall c sig).1 sig).1 sig2).1.compileCount
        = (dispatchCall (dispatchCall c sig).1 sig).1.compileCount + 1 := by
  have hne2 : ¬(sig = sig2) := fun hh => hne hh.symm
  refine ⟨by simp [dispatchCall, h1], ?_, ?_, ?_⟩ <;>
    simp [dispatchCall, h1, clookup, hne2, h2]

/-- Witness for C1: two calls with identical signatures differing from a third
only in an argument shape. -/
theorem named_pjit_cache_compile_once_witness :
    (dispatchCall
        (dispatchCall
          (dispatchCall ⟨[], 0⟩ ⟨0, [], [[2]], [[some (.single "data")]]⟩).1
          ⟨0, [], [[2]], [[some (.single "data")]]⟩).1
        ⟨0, [], [[3]], [[some (.single "data")]]⟩).1.compileCount
      = (dispatchCall
          (dispatchCall ⟨[], 0⟩ ⟨0, [], [[2]], [[some (.single "data")]]⟩).1
          ⟨0, [], [[2]], [[some (.single "data")]]⟩).1.compileCount + 1 :=
  (named_pjit_cache_compile_once ⟨[], 0⟩ ⟨0, [], [[2]], [[some (.single "data")]]⟩
      ⟨0, [], [[3]], [[some (.single "data")]]⟩ rfl rfl (by decide)).2.2.2

/-- C3 refutation: the shape-inference cache keys only on the static half of
`hashable_partition`, which omits the shapes of the dynamic array leaves; two
calls that differ only in an array argument's shape (`[2]` vs `[3]`) share
one cache entry, and the second call receives the first call's stale skeleton
`[2]` although fresh shape inference on its arguments yields `[3]`. -/
theorem cached_filter_eval_shape_stale_shape :
    (cached_filter_eval_shape
        (cached_filter_eval_shape ⟨[]⟩ 0
          (fun _ shapes => shapes.foldr (· ++ ·) []) [.arr [2]]).1
        0 (fun _ shapes => shapes.foldr (· ++ ·) []) [.arr [3]]).2 = [2]
    ∧ (fun (_ : List (Option Nat)) (shapes : List (List Nat)) =>
          shapes.foldr (· ++ ·) []) (staticPart [.arr [3]]) (dynamicShapes [.arr [3]])
        = [3]
    ∧ (cached_filter_eval_shape
        (cached_filter_eval_shape ⟨[]⟩ 0
          (fun _ shapes => shapes.foldr (· ++ ·) []) [.arr [2]]).1
        0 (fun _ shapes => shapes.foldr (· ++ ·) []) [.arr [3]]).1.entries.length
      = (cached_filter_eval_shape ⟨[]⟩ 0
          (fun _ shapes => shapes.foldr (· ++ ·) []) [.arr [2]]).1.entries.length :=
  ⟨rfl, rfl, rfl⟩

end Haliax
